import Mathlib

/-!
Shallow embedding of the dungeoncards game engine (src/src/main.rs) and
verification of its specification claims.

Machine integers are modelled as `Nat`: all subtractions in the source are
explicitly clamped at 0 (via `cmp::max(_, 0)` on a widened type), which is
exactly `Nat` truncated subtraction, and all additions stay far below the
u8/u32 overflow thresholds in every reachable state (a Rust debug build
would panic on overflow rather than wrap, so wrapping is not modelled).
Console printing is not modelled; the interactive destroy-slot prompt of
the joker branch is passed in as an `Option Nat` parameter (`none` models
an unparsable line).
-/

namespace DungeonCards

/-- `enum Suit` (declaration order Hearts, Diamonds, Clubs, Spades, which is
also its derived `Ord`). -/
inductive Suit
  | Hearts
  | Diamonds
  | Clubs
  | Spades
deriving DecidableEq, Repr, Fintype

/-- `enum Rank`, discriminants Ace=1 .. King=13. -/
inductive Rank
  | Ace
  | Two
  | Three
  | Four
  | Five
  | Six
  | Seven
  | Eight
  | Nine
  | Ten
  | Jack
  | Queen
  | King
deriving DecidableEq, Repr, Fintype

/-- The numeric discriminant of a `Rank` (`rank as u8` in the source). -/
def Rank.val : Rank → Nat
  | .Ace => 1
  | .Two => 2
  | .Three => 3
  | .Four => 4
  | .Five => 5
  | .Six => 6
  | .Seven => 7
  | .Eight => 8
  | .Nine => 9
  | .Ten => 10
  | .Jack => 11
  | .Queen => 12
  | .King => 13

/-- `enum JokerColor` (declaration order Red, Black; its derived `Ord` makes
Red < Black). -/
inductive JokerColor
  | Red
  | Black
deriving DecidableEq, Repr, Fintype

/-- `enum CardType`. -/
inductive CardType
  | Regular (suit : Suit) (rank : Rank)
  | Joker (color : JokerColor)
deriving DecidableEq, Repr, Fintype

/-- `struct Card { card_type: CardType }`. -/
structure Card where
  card_type : CardType
deriving DecidableEq, Repr, Fintype

/-- `Card::get_value`. -/
def Card.get_value (c : Card) : Nat :=
  match c.card_type with
  | .Regular _ rank => rank.val
  | .Joker _ => 15

/-- Index of a suit in declaration order, realising the derived
`Ord for Suit`. -/
def suitIdx : Suit → Nat
  | .Hearts => 0
  | .Diamonds => 1
  | .Clubs => 2
  | .Spades => 3

/-- Index of a joker color in declaration order, realising the derived
`Ord for JokerColor` (Red < Black). -/
def colorIdx : JokerColor → Nat
  | .Red => 0
  | .Black => 1

/-- `impl Ord for Card`, method `cmp`.  Regular vs Regular compares rank
(`rank.cmp`) then suit (`then_with`); a Regular compared with a Joker
yields `Greater`; a Joker compared with a Regular yields `Less`; Joker vs
Joker compares colors in declaration order. -/
def Card.cmp (a b : Card) : Ordering :=
  match a.card_type with
  | .Regular suit rank =>
    match b.card_type with
    | .Regular suit' rank' =>
        (compare rank.val rank'.val).then (compare (suitIdx suit) (suitIdx suit'))
    | .Joker _ => Ordering.gt
  | .Joker color =>
    match b.card_type with
    | .Regular _ _ => Ordering.lt
    | .Joker color' => compare (colorIdx color) (colorIdx color')

/-- A rank-then-suit-then-jokers-on-top key that realises `Card.cmp` as a
comparison of naturals (jokers at the bottom, Red Joker lowest). -/
def Card.key (c : Card) : Nat :=
  match c.card_type with
  | .Joker color => colorIdx color
  | .Regular suit rank => 2 + 4 * rank.val + suitIdx suit

/-- The non-strict order induced by `Card.cmp` (what `Vec::sort` sorts by). -/
def cardLE (a b : Card) : Prop := Card.cmp a b ≠ Ordering.gt

instance : DecidableRel cardLE := fun a b =>
  inferInstanceAs (Decidable (Card.cmp a b ≠ Ordering.gt))

/-- All ranks in declaration order (`Rank::iter()`). -/
def allRanks : List Rank :=
  [.Ace, .Two, .Three, .Four, .Five, .Six, .Seven, .Eight, .Nine, .Ten,
   .Jack, .Queen, .King]

/-- `Game::create_deck`: the 52 regular cards (suits in declaration order,
ranks Ace..King within each suit) followed by the Black and the Red Joker. -/
def create_deck : List Card :=
  (([Suit.Hearts, Suit.Diamonds, Suit.Clubs, Suit.Spades].map
      (fun s => allRanks.map (fun r => Card.mk (CardType.Regular s r)))).flatten)
  ++ [Card.mk (CardType.Joker JokerColor.Black), Card.mk (CardType.Joker JokerColor.Red)]

/-- `enum GameState`. -/
inductive GameState
  | Floor
  | Shop
  | Lost
  | Won
deriving DecidableEq, Repr

/-- `struct Game`.  `health`, `money`, `weapon_damage`, `weapon_durability`
are u8/u32 in the source, modelled as `Nat` (see module comment). -/
structure Game where
  dungeon : List Card
  dungeon_discard : List Card
  room : List Card
  bosses : List Card
  shop : List Card
  shop_stock : List Card
  shop_discard : List Card
  health : Nat
  money : Nat
  weapon_damage : Nat
  weapon_durability : Nat
  fled : Bool
  state : GameState
deriving DecidableEq, Repr

/-- `u8::MAX`, the pristine-weapon durability sentinel. -/
def u8MAX : Nat := 255

/-- Fallback used with `List.getD`; all accesses in the operations below are
range-guarded exactly as in the source, so it is never actually read. -/
def dummyCard : Card := Card.mk (CardType.Joker JokerColor.Red)

/-- The partition loop in `Game::new`: each card of the (shuffled) deck is
pushed, in deck order, onto the dungeon pool when its rank is 4..=9, onto
the shop pool when it is a rank 10..=13 Hearts/Diamonds card or a Joker,
onto the boss pool when it is a rank 10..=13 Clubs/Spades card, and dropped
when its rank is Ace..=3.  Returns (dungeon, bosses, shop). -/
def deck_partition : List Card → List Card × List Card × List Card
  | [] => ([], [], [])
  | c :: rest =>
    let (dungeon, bosses, shop) := deck_partition rest
    match c.card_type with
    | .Regular suit rank =>
      if 4 ≤ rank.val ∧ rank.val ≤ 9 then (c :: dungeon, bosses, shop)
      else if 10 ≤ rank.val ∧ rank.val ≤ 13 then
        match suit with
        | .Hearts | .Diamonds => (dungeon, bosses, c :: shop)
        | .Clubs | .Spades => (dungeon, c :: bosses, shop)
      else (dungeon, bosses, shop)
    | .Joker _ => (dungeon, bosses, c :: shop)

/-- `bosses.sort()`: sort ascending by the `Card.cmp` order. -/
def sortCards (l : List Card) : List Card := l.insertionSort cardLE

/-- `Game::new`, applied to the already-shuffled deck (the claims quantify
over all permutations of `create_deck`). -/
def Game.new (deck : List Card) : Game :=
  let (dungeon, bosses, shop) := deck_partition deck
  { dungeon := dungeon
    dungeon_discard := []
    room := []
    bosses := sortCards bosses
    shop := shop
    shop_stock := []
    shop_discard := []
    health := 12
    money := 5
    weapon_damage := 0
    weapon_durability := u8MAX
    fled := false
    state := GameState.Floor }

/-- `Game::start_floor`, parametrised by the dungeon shuffle (theorems
assume it permutes its input). -/
def start_floor (shuffle : List Card → List Card) (g : Game) : Game :=
  { g with
    health := 12
    weapon_damage := 0
    weapon_durability := u8MAX
    dungeon := shuffle (g.dungeon ++ g.room ++ g.dungeon_discard)
    room := []
    dungeon_discard := [] }

/-- The loop pattern `for _ in 0..n { dst.push(src.remove(0)) }`: move `n`
cards from the front of `src` to the back of `dst`; returns (src, dst).
Every call site guards `n ≤ src.length`, matching the source's panic-free
executions. -/
def moveN : Nat → List Card → List Card → List Card × List Card
  | 0, src, dst => (src, dst)
  | _ + 1, [], dst => ([], dst)
  | n + 1, c :: src, dst => moveN n src (dst ++ [c])

/-- Is the card a Clubs/Spades regular card (the `matches!` in
`refresh_room`'s win check)? -/
def isMonster (c : Card) : Bool :=
  match c.card_type with
  | .Regular .Clubs _ | .Regular .Spades _ => true
  | _ => false

/-- The room-restock phase of `Game::refresh_room`. -/
def restock (g : Game) : Game :=
  if g.room.length ≤ 1 then
    let amount := min (4 - g.room.length) g.dungeon.length
    let (d, r) := moveN amount g.dungeon g.room
    { g with dungeon := d, room := r }
  else g

/-- The loss/win phase of `Game::refresh_room` (everything after the
restock): the loss check returns early and so always wins over the win
check. -/
def winLossCheck (g : Game) : Game :=
  if g.health = 0 then { g with state := GameState.Lost }
  else if g.dungeon.isEmpty && !(g.room.any isMonster) then
    if g.bosses.isEmpty then { g with state := GameState.Won }
    else
      let (sh, st) := moveN (min g.shop.length 4) g.shop g.shop_stock
      { g with state := GameState.Shop, shop := sh, shop_stock := st }
  else g

/-- `Game::refresh_room`: the restock phase followed by the loss/win
phase.  The `quiet` flag only suppresses a printed notification and has no
state effect. -/
def refresh_room (g : Game) (_quiet : Bool) : Game :=
  winLossCheck (restock g)

/-- The Clubs/Spades branch of `Game::use_card`: fight the monster of the
given rank.  `d = rank - weapon_damage` is computed in i16; the health
drops are clamped at 0, which is `Nat` subtraction here. -/
def monsterFight (g : Game) (rank : Rank) : Game :=
  if g.weapon_damage > 0 ∧ g.weapon_durability > rank.val then
    let g' :=
      if rank.val < g.weapon_damage then
        { g with money := g.money + (g.weapon_damage - rank.val) }
      else
        { g with health := g.health - (rank.val - g.weapon_damage) }
    { g' with weapon_durability := rank.val }
  else
    { g with health := g.health - rank.val }

/-- The Hearts branch of `Game::use_card`: potion of the given rank. -/
def potion (g : Game) (rank : Rank) : Game :=
  if rank.val < Rank.Jack.val then
    { g with health := min (g.health + rank.val) (max 12 g.health) }
  else
    { g with health := 12 + (rank.val - Rank.Ten.val) * 2 }

/-- The Diamonds branch of `Game::use_card`: equip (rank < Jack) or repair
(rank ≥ Jack; only applied when the durability is below the pristine
sentinel, and not clamped). -/
def weaponCard (g : Game) (rank : Rank) : Game :=
  if rank.val < Rank.Jack.val then
    { g with weapon_damage := rank.val, weapon_durability := u8MAX }
  else
    let repair := (rank.val - Rank.Ten.val) * 2
    if g.weapon_durability < u8MAX then
      { g with weapon_durability := g.weapon_durability + repair }
    else g

/-- The shared tail of `Game::use_card`: discard the played card (at the
possibly adjusted 1-based index) and clear `fled`. -/
def discardPlayed (g : Game) (room_idx : Nat) : Game :=
  { g with
    dungeon_discard := g.dungeon_discard ++ [g.room.getD (room_idx - 1) dummyCard]
    room := g.room.eraseIdx (room_idx - 1)
    fled := false }

/-- `Game::use_card`.  `room_idx` is the 1-based slot; `destroyInput` is
the parsed response to the joker branch's destroy prompt (`none` for an
unparsable line).  All failure paths return before any mutation, exactly
as the source's early `return`s. -/
def use_card (g : Game) (room_idx : Nat) (destroyInput : Option Nat) : Game :=
  if room_idx = 0 ∨ g.room.length ≤ room_idx - 1 then g
  else
    match (g.room.getD (room_idx - 1) dummyCard).card_type with
    | .Joker _ =>
      match destroyInput with
      | none => g
      | some idx =>
        if idx = 0 ∨ g.room.length ≤ idx - 1 then g
        else if idx = room_idx then g
        else
          let destroyed := g.room.getD (idx - 1) dummyCard
          let v := (destroyed.get_value + 1) / 2
          let g := { g with
            money := g.money + v
            dungeon_discard := g.dungeon_discard ++ [destroyed]
            room := g.room.eraseIdx (idx - 1) }
          discardPlayed g (if idx < room_idx then room_idx - 1 else room_idx)
    | .Regular suit rank =>
      let g :=
        match suit with
        | .Clubs | .Spades => monsterFight g rank
        | .Hearts => potion g rank
        | .Diamonds => weaponCard g rank
      discardPlayed g room_idx

/-- One iteration of the flee loop body
`dungeon.push(room.pop().expect(..))`. -/
def popPush (room dungeon : List Card) : List Card × List Card :=
  (room.dropLast, dungeon ++ room.getLast?.toList)

/-- `Game::flee`: guarded by a full room and `!fled`, then four pop/push
iterations. -/
def flee (g : Game) : Game :=
  if g.room.length < 4 then g
  else if g.fled then g
  else
    let (r1, d1) := popPush g.room g.dungeon
    let (r2, d2) := popPush r1 d1
    let (r3, d3) := popPush r2 d2
    let (r4, d4) := popPush r3 d3
    { g with room := r4, dungeon := d4, fled := true }

/-- `Game::buy_card`.  1-based index into `shop_stock`. -/
def buy_card (g : Game) (shop_idx : Nat) : Game :=
  if shop_idx = 0 ∨ g.shop_stock.length ≤ shop_idx - 1 then g
  else
    let card := g.shop_stock.getD (shop_idx - 1) dummyCard
    if card.get_value ≤ g.money then
      { g with
        money := g.money - card.get_value
        dungeon := g.dungeon ++ [card]
        shop_stock := g.shop_stock.eraseIdx (shop_idx - 1) }
    else g

/-- The `continue` transition of the command loop (a state-machine edge of
the engine): discard the remaining stock, recycle the shop pool when it is
empty (reshuffled by `shuffleShop`), release the two lowest bosses into the
dungeon, return to the floor state, and restart the floor. -/
def shop_continue (shuffleShop shuffleDungeon : List Card → List Card) (g : Game) : Game :=
  let g1 := { g with shop_discard := g.shop_discard ++ g.shop_stock, shop_stock := [] }
  let g2 :=
    if g1.shop.isEmpty then
      { g1 with shop := shuffleShop (g1.shop ++ g1.shop_discard), shop_discard := [] }
    else g1
  -- the two `dungeon.push(bosses.remove(0))` statements: the first two
  -- bosses move, in order, to the end of the dungeon
  let g3 := { g2 with
    dungeon := g2.dungeon ++ g2.bosses.take 2
    bosses := g2.bosses.drop 2
    state := GameState.Floor }
  refresh_room (start_floor shuffleDungeon g3) true

/-- Total number of cards across the seven pools of a game state. -/
def totalCards (g : Game) : Nat :=
  g.dungeon.length + g.dungeon_discard.length + g.room.length + g.bosses.length
    + g.shop.length + g.shop_stock.length + g.shop_discard.length

/-- The game states reachable by the engine: a fresh game from any shuffle
of the deck, closed under every engine operation (with arbitrary player
inputs, and arbitrary permutations for the shuffles). -/
inductive Reachable : Game → Prop
  | new (deck : List Card) (hdeck : deck.Perm create_deck) : Reachable (Game.new deck)
  | start_floor (shuffle : List Card → List Card) (g : Game)
      (hsh : ∀ l : List Card, (shuffle l).Perm l) (hg : Reachable g) :
      Reachable (start_floor shuffle g)
  | refresh_room (g : Game) (q : Bool) (hg : Reachable g) : Reachable (refresh_room g q)
  | use_card (g : Game) (i : Nat) (inp : Option Nat) (hg : Reachable g) :
      Reachable (use_card g i inp)
  | flee (g : Game) (hg : Reachable g) : Reachable (flee g)
  | buy_card (g : Game) (i : Nat) (hg : Reachable g) : Reachable (buy_card g i)
  | shop_continue (shuffleShop shuffleDungeon : List Card → List Card) (g : Game)
      (hs : ∀ l : List Card, (shuffleShop l).Perm l)
      (hd : ∀ l : List Card, (shuffleDungeon l).Perm l)
      (hg : Reachable g) :
      Reachable (shop_continue shuffleShop shuffleDungeon g)

/-- Membership test for the dungeon pool: a rank 4..=9 regular card. -/
def isDungeonCard (c : Card) : Bool :=
  match c.card_type with
  | .Regular _ rank => decide (4 ≤ rank.val ∧ rank.val ≤ 9)
  | .Joker _ => false

/-- Membership test for the boss pool: a rank 10..=13 Clubs/Spades card. -/
def isBossCard (c : Card) : Bool :=
  match c.card_type with
  | .Regular suit rank =>
    decide (10 ≤ rank.val ∧ rank.val ≤ 13) &&
      (match suit with | .Clubs | .Spades => true | _ => false)
  | .Joker _ => false

/-- Membership test for the shop pool: a rank 10..=13 Hearts/Diamonds card
or a joker. -/
def isShopCard (c : Card) : Bool :=
  match c.card_type with
  | .Regular suit rank =>
    decide (10 ≤ rank.val ∧ rank.val ≤ 13) &&
      (match suit with | .Hearts | .Diamonds => true | _ => false)
  | .Joker _ => true

/-- The suit dispatch inside the Regular arm of `use_card`. -/
def regularBranch (g : Game) (s : Suit) (r : Rank) : Game :=
  match s with
  | .Clubs | .Spades => monsterFight g r
  | .Hearts => potion g r
  | .Diamonds => weaponCard g r

/-- The durability invariant claimed by the spec: the pristine sentinel or
a rank value 1..13. -/
def DurabilityInv (g : Game) : Prop :=
  g.weapon_durability = u8MAX ∨ (1 ≤ g.weapon_durability ∧ g.weapon_durability ≤ 13)

instance (g : Game) : Decidable (DurabilityInv g) :=
  inferInstanceAs (Decidable (_ ∨ _))

/-- A state satisfying the claimed invariant (weapon 5♦ degraded to
durability 13) whose room slot 1 holds a J♦ repair card. -/
def gC9 : Game :=
  { dungeon := []
    dungeon_discard := []
    room := [Card.mk (CardType.Regular Suit.Diamonds Rank.Jack)]
    bosses := []
    shop := []
    shop_stock := []
    shop_discard := []
    health := 12
    money := 0
    weapon_damage := 5
    weapon_durability := 13
    fled := false
    state := GameState.Floor }

/-- Witness state for the monster claim: a lone 5♣ in the room, weapon 3♦
with durability 10. -/
def gW1 : Game :=
  { dungeon := []
    dungeon_discard := []
    room := [Card.mk (CardType.Regular Suit.Clubs Rank.Five)]
    bosses := []
    shop := []
    shop_stock := []
    shop_discard := []
    health := 12
    money := 7
    weapon_damage := 3
    weapon_durability := 10
    fled := false
    state := GameState.Floor }

/-- Witness state for the restock claim: one card in the room, five in the
dungeon. -/
def gW2 : Game :=
  { dungeon :=
      [Card.mk (CardType.Regular Suit.Clubs Rank.Five),
       Card.mk (CardType.Regular Suit.Spades Rank.Six),
       Card.mk (CardType.Regular Suit.Hearts Rank.Seven),
       Card.mk (CardType.Regular Suit.Diamonds Rank.Eight),
       Card.mk (CardType.Regular Suit.Clubs Rank.Nine)]
    dungeon_discard := []
    room := [Card.mk (CardType.Regular Suit.Hearts Rank.Four)]
    bosses := []
    shop := []
    shop_stock := []
    shop_discard := []
    health := 12
    money := 5
    weapon_damage := 0
    weapon_durability := u8MAX
    fled := false
    state := GameState.Floor }

/-- Witness state for the potion claim: a lone 7♥ in the room, health 5. -/
def gW3 : Game :=
  { dungeon := []
    dungeon_discard := []
    room := [Card.mk (CardType.Regular Suit.Hearts Rank.Seven)]
    bosses := []
    shop := []
    shop_stock := []
    shop_discard := []
    health := 5
    money := 5
    weapon_damage := 0
    weapon_durability := u8MAX
    fled := false
    state := GameState.Floor }

/-- Witness state for the joker claim: room = [A♦, 5♣, Jo(Black), 9♥]. -/
def gW6 : Game :=
  { dungeon := []
    dungeon_discard := []
    room :=
      [Card.mk (CardType.Regular Suit.Diamonds Rank.Ace),
       Card.mk (CardType.Regular Suit.Clubs Rank.Five),
       Card.mk (CardType.Joker JokerColor.Black),
       Card.mk (CardType.Regular Suit.Hearts Rank.Nine)]
    bosses := []
    shop := []
    shop_stock := []
    shop_discard := []
    health := 12
    money := 2
    weapon_damage := 0
    weapon_durability := u8MAX
    fled := false
    state := GameState.Floor }

/-- Witness state for the flee claim: a full room, `fled` false. -/
def gW7 : Game :=
  { dungeon := [Card.mk (CardType.Regular Suit.Spades Rank.Nine)]
    dungeon_discard := []
    room :=
      [Card.mk (CardType.Regular Suit.Clubs Rank.Four),
       Card.mk (CardType.Regular Suit.Hearts Rank.Five),
       Card.mk (CardType.Regular Suit.Diamonds Rank.Six),
       Card.mk (CardType.Regular Suit.Spades Rank.Seven)]
    bosses := []
    shop := []
    shop_stock := []
    shop_discard := []
    health := 12
    money := 5
    weapon_damage := 0
    weapon_durability := u8MAX
    fled := false
    state := GameState.Floor }

/-- Witness state for the shop claim: $5, a $15 joker in slot 1 and a $5
card in slot 2 of the stock. -/
def gW8 : Game :=
  { dungeon := []
    dungeon_discard := []
    room := []
    bosses := [Card.mk (CardType.Regular Suit.Clubs Rank.Ten)]
    shop := []
    shop_stock :=
      [Card.mk (CardType.Joker JokerColor.Black),
       Card.mk (CardType.Regular Suit.Hearts Rank.Five)]
    shop_discard := []
    health := 12
    money := 5
    weapon_damage := 0
    weapon_durability := u8MAX
    fled := false
    state := GameState.Shop }

/-! ## Helper lemmas -/

theorem cmp_eq_compare_key : ∀ a b : Card, Card.cmp a b = compare a.key b.key := by
  decide

theorem key_injective : ∀ a b : Card, a.key = b.key → a = b := by
  decide

theorem cardLE_iff_key (a b : Card) : cardLE a b ↔ a.key ≤ b.key := by
  unfold cardLE
  rw [cmp_eq_compare_key]
  simp only [Ne, Nat.compare_eq_gt]
  omega

theorem rank_val_bounds : ∀ r : Rank, 1 ≤ r.val ∧ r.val ≤ 13 := by decide

theorem suitIdx_lt : ∀ s : Suit, suitIdx s < 4 := by decide

theorem moveN_eq : ∀ (n : Nat) (src dst : List Card), n ≤ src.length →
    moveN n src dst = (src.drop n, dst ++ src.take n)
  | 0, src, dst, _ => by simp [moveN]
  | _ + 1, [], _, h => by simp at h
  | n + 1, c :: src, dst, h => by
    have ih := moveN_eq n src (dst ++ [c]) (by simpa using h)
    simp [moveN, ih]

theorem moveN_length : ∀ (n : Nat) (src dst : List Card),
    (moveN n src dst).1.length + (moveN n src dst).2.length = src.length + dst.length
  | 0, src, dst => by simp [moveN]
  | _ + 1, [], dst => by simp [moveN]
  | n + 1, c :: src, dst => by
    have ih := moveN_length n src (dst ++ [c])
    simp [moveN] at ih ⊢
    omega

theorem deck_partition_eq (l : List Card) :
    deck_partition l = (l.filter isDungeonCard, l.filter isBossCard, l.filter isShopCard) := by
  induction l with
  | nil => rfl
  | cons c rest ih =>
    obtain ⟨ct⟩ := c
    rcases ct with ⟨s, r⟩ | col
    · rcases s <;> rcases r <;>
        simp [deck_partition, ih, isDungeonCard, isBossCard, isShopCard,
          List.filter_cons, Rank.val]
    · simp [deck_partition, ih, isDungeonCard, isBossCard, isShopCard, List.filter_cons]

theorem sortCards_perm (l : List Card) : (sortCards l).Perm l :=
  List.perm_insertionSort cardLE l

theorem sortCards_sorted (l : List Card) : List.Sorted cardLE (sortCards l) := by
  haveI : IsTotal Card cardLE :=
    ⟨fun a b => by
      rw [cardLE_iff_key, cardLE_iff_key]
      omega⟩
  haveI : IsTrans Card cardLE :=
    ⟨fun a b c hab hbc => by
      rw [cardLE_iff_key] at *
      omega⟩
  exact List.sorted_insertionSort cardLE l

/-! ## C5: the card ordering -/

/-- C5, counterexample: the claim asserts that every Regular card compares
less than every Joker and that the Black Joker compares less than the Red
Joker; in the code the Ace of Hearts compares greater than the Black Joker,
and the Black Joker compares greater than the Red Joker. -/
theorem card_order_counterexample :
    Card.cmp (Card.mk (CardType.Regular Suit.Hearts Rank.Ace))
        (Card.mk (CardType.Joker JokerColor.Black)) = Ordering.gt ∧
    Card.cmp (Card.mk (CardType.Joker JokerColor.Black))
        (Card.mk (CardType.Joker JokerColor.Red)) = Ordering.gt := by
  decide

theorem cmp_lt_iff_key (a b : Card) : Card.cmp a b = Ordering.lt ↔ a.key < b.key := by
  rw [cmp_eq_compare_key]; exact Nat.compare_eq_lt

theorem cmp_gt_iff_key (a b : Card) : Card.cmp a b = Ordering.gt ↔ b.key < a.key := by
  rw [cmp_eq_compare_key]; exact Nat.compare_eq_gt

theorem cmp_eq_iff_key (a b : Card) : Card.cmp a b = Ordering.eq ↔ a.key = b.key := by
  rw [cmp_eq_compare_key]; exact Nat.compare_eq_eq

/-- C5 (amended): the card ordering is total (it reflects equality, is
antisymmetric and transitive) and satisfies: two Regular cards compare by
rank first and then by suit with Hearts < Diamonds < Clubs < Spades; every
Joker compares less than every Regular card; and between Jokers, Red
compares less than Black. -/
theorem card_order_amended :
    (∀ a b : Card, Card.cmp a b = Ordering.eq ↔ a = b) ∧
    (∀ a b : Card, Card.cmp a b = Ordering.lt ↔ Card.cmp b a = Ordering.gt) ∧
    (∀ a b c : Card, Card.cmp a b = Ordering.lt → Card.cmp b c = Ordering.lt →
      Card.cmp a c = Ordering.lt) ∧
    (∀ (s s2 : Suit) (r r2 : Rank),
      Card.cmp (Card.mk (CardType.Regular s r)) (Card.mk (CardType.Regular s2 r2)) =
          Ordering.lt ↔
        (r.val < r2.val ∨ (r.val = r2.val ∧ suitIdx s < suitIdx s2))) ∧
    (∀ (col : JokerColor) (s : Suit) (r : Rank),
      Card.cmp (Card.mk (CardType.Joker col)) (Card.mk (CardType.Regular s r)) =
        Ordering.lt) ∧
    Card.cmp (Card.mk (CardType.Joker JokerColor.Red))
      (Card.mk (CardType.Joker JokerColor.Black)) = Ordering.lt := by
  refine ⟨?_, ?_, ?_, ?_, ?_, by decide⟩
  · intro a b
    rw [cmp_eq_iff_key]
    exact ⟨fun h => key_injective a b h, fun h => h ▸ rfl⟩
  · intro a b
    rw [cmp_lt_iff_key, cmp_gt_iff_key]
  · intro a b c hab hbc
    rw [cmp_lt_iff_key] at *
    omega
  · intro s s2 r r2
    rw [cmp_lt_iff_key]
    show 2 + 4 * r.val + suitIdx s < 2 + 4 * r2.val + suitIdx s2 ↔ _
    have h1 := suitIdx_lt s
    have h2 := suitIdx_lt s2
    omega
  · intro col s r
    rw [cmp_lt_iff_key]
    show colorIdx col < 2 + 4 * r.val + suitIdx s
    rcases col <;> (simp only [colorIdx]; omega)

/-! ## C4: the deck partition at game creation -/

/-- C4, counterexample: the claim states the dungeon pool receives 32
cards; for the identity shuffle it receives the 24 rank 4–9 cards (6 ranks
× 4 suits), not 32. -/
theorem deck_partition_counterexample :
    (Game.new create_deck).dungeon.length = 24 ∧
    ¬ (Game.new create_deck).dungeon.length = 32 := by
  decide

/-- C4 (amended): for every shuffle of the 54-card deck, the dungeon pool
receives exactly the rank 4–9 cards (24 of them, 6 ranks × 4 suits, not 32
as stated), the shop pool receives the rank 10–13 Hearts/Diamonds cards (8)
plus the 2 jokers (10 total), the boss pool receives the rank 10–13
Clubs/Spades cards (8) and is sorted ascending by the card order, and the
rank Ace–3 cards appear in no pool. -/
theorem deck_partition_amended (deck : List Card) (hdeck : deck.Perm create_deck) :
    ((Game.new deck).dungeon.Perm (create_deck.filter isDungeonCard) ∧
      (Game.new deck).dungeon.length = 24) ∧
    ((Game.new deck).shop.Perm (create_deck.filter isShopCard) ∧
      (Game.new deck).shop.length = 10) ∧
    ((Game.new deck).bosses.Perm (create_deck.filter isBossCard) ∧
      (Game.new deck).bosses.length = 8 ∧
      List.Sorted cardLE (Game.new deck).bosses) ∧
    (∀ (c : Card) (s : Suit) (r : Rank), c.card_type = CardType.Regular s r →
      r.val ≤ 3 →
      c ∉ (Game.new deck).dungeon ∧ c ∉ (Game.new deck).shop ∧
        c ∉ (Game.new deck).bosses) := by
  have hdu : (Game.new deck).dungeon = deck.filter isDungeonCard := by
    simp [Game.new, deck_partition_eq]
  have hbo : (Game.new deck).bosses = sortCards (deck.filter isBossCard) := by
    simp [Game.new, deck_partition_eq]
  have hsh : (Game.new deck).shop = deck.filter isShopCard := by
    simp [Game.new, deck_partition_eq]
  have pdu : (Game.new deck).dungeon.Perm (create_deck.filter isDungeonCard) :=
    hdu ▸ hdeck.filter isDungeonCard
  have psh : (Game.new deck).shop.Perm (create_deck.filter isShopCard) :=
    hsh ▸ hdeck.filter isShopCard
  have pbo : (Game.new deck).bosses.Perm (create_deck.filter isBossCard) :=
    hbo ▸ (sortCards_perm _).trans (hdeck.filter isBossCard)
  refine ⟨⟨pdu, ?_⟩, ⟨psh, ?_⟩, ⟨pbo, ?_, ?_⟩, ?_⟩
  · rw [pdu.length_eq]; decide
  · rw [psh.length_eq]; decide
  · rw [pbo.length_eq]; decide
  · rw [hbo]; exact sortCards_sorted _
  · intro c s r hc hr
    have hnd : isDungeonCard c = false := by
      simp [isDungeonCard, hc]; omega
    have hnb : isBossCard c = false := by
      simp [isBossCard, hc]; omega
    have hns : isShopCard c = false := by
      simp [isShopCard, hc]; omega
    refine ⟨?_, ?_, ?_⟩
    · rw [hdu]; simp [List.mem_filter, hnd]
    · rw [hsh]; simp [List.mem_filter, hns]
    · rw [hbo]
      intro hmem
      have := (sortCards_perm _).mem_iff.mp hmem
      simp [List.mem_filter, hnb] at this

/-! ## use_card claims -/

theorem use_card_regular (g : Game) (i : Nat) (s : Suit) (r : Rank) (inp : Option Nat)
    (h1 : 1 ≤ i) (h2 : i - 1 < g.room.length)
    (hc : (g.room.getD (i - 1) dummyCard).card_type = CardType.Regular s r) :
    use_card g i inp = discardPlayed (regularBranch g s r) i := by
  unfold use_card
  rw [if_neg (by omega)]
  generalize hct : (g.room.getD (i - 1) dummyCard).card_type = ct
  obtain rfl : ct = CardType.Regular s r := hct ▸ hc
  rfl

theorem getD_eraseIdx_of_lt (l : List Card) (k m : Nat) (h : m < k) :
    (l.eraseIdx k).getD m dummyCard = l.getD m dummyCard := by
  rw [List.getD_eq_getElem?_getD, List.getD_eq_getElem?_getD,
    List.getElem?_eraseIdx_of_lt l k m h]

theorem getD_eraseIdx_of_ge (l : List Card) (k m : Nat) (h : k ≤ m) :
    (l.eraseIdx k).getD m dummyCard = l.getD (m + 1) dummyCard := by
  rw [List.getD_eq_getElem?_getD, List.getD_eq_getElem?_getD,
    List.getElem?_eraseIdx_of_ge l k m h]

/-- C1: playing a Clubs/Spades card of rank `r` from a valid slot: when a
weapon is equipped (`weapon_damage > 0`) and `weapon_durability > r`, the
weapon is used — with `delta = r - weapon_damage`, if `delta < 0` money
increases by `|delta|` and health is unchanged, otherwise health drops by
`delta` (clamped at 0) — and the durability is set to `r` in either case;
otherwise the fight is barehanded: health drops by `r` (clamped at 0) and
the weapon stats are unchanged. -/
theorem use_card_monster_spec (g : Game) (i : Nat) (s : Suit) (r : Rank) (inp : Option Nat)
    (h1 : 1 ≤ i) (h2 : i - 1 < g.room.length)
    (hc : (g.room.getD (i - 1) dummyCard).card_type = CardType.Regular s r)
    (hs : s = Suit.Clubs ∨ s = Suit.Spades) :
    (0 < g.weapon_damage ∧ r.val < g.weapon_durability →
      (use_card g i inp).weapon_durability = r.val ∧
      (r.val < g.weapon_damage →
        (use_card g i inp).money = g.money + (g.weapon_damage - r.val) ∧
        (use_card g i inp).health = g.health) ∧
      (g.weapon_damage ≤ r.val →
        (use_card g i inp).health = g.health - (r.val - g.weapon_damage) ∧
        (use_card g i inp).money = g.money)) ∧
    (¬ (0 < g.weapon_damage ∧ r.val < g.weapon_durability) →
      (use_card g i inp).health = g.health - r.val ∧
      (use_card g i inp).weapon_damage = g.weapon_damage ∧
      (use_card g i inp).weapon_durability = g.weapon_durability ∧
      (use_card g i inp).money = g.money) := by
  have he : use_card g i inp = discardPlayed (monsterFight g r) i := by
    rcases hs with h | h <;>
      (subst h; exact use_card_regular g i _ r inp h1 h2 hc)
  rw [he]
  by_cases hW : 0 < g.weapon_damage ∧ r.val < g.weapon_durability
  · refine ⟨fun _ => ?_, fun h => absurd hW h⟩
    by_cases hlt : r.val < g.weapon_damage
    · refine ⟨?_, fun _ => ⟨?_, ?_⟩, fun hge => absurd hlt (by omega)⟩ <;>
        simp [monsterFight, discardPlayed, if_pos hW, if_pos hlt]
    · refine ⟨?_, fun hlt2 => absurd hlt2 hlt, fun _ => ⟨?_, ?_⟩⟩ <;>
        simp [monsterFight, discardPlayed, if_pos hW, if_neg hlt]
  · refine ⟨fun h => absurd h hW, fun _ => ?_⟩
    refine ⟨?_, ?_, ?_, ?_⟩ <;>
      simp [monsterFight, discardPlayed, if_neg hW]

/-- C3: playing a Hearts card of rank `r` from a valid slot: if `r < 11`
the new health is `min (health + r) (max 12 health)`; if `r ≥ 11` the new
health is exactly `12 + (r - 10) * 2` regardless of the previous health. -/
theorem use_card_potion_spec (g : Game) (i : Nat) (r : Rank) (inp : Option Nat)
    (h1 : 1 ≤ i) (h2 : i - 1 < g.room.length)
    (hc : (g.room.getD (i - 1) dummyCard).card_type = CardType.Regular Suit.Hearts r) :
    (r.val < 11 →
      (use_card g i inp).health = min (g.health + r.val) (max 12 g.health)) ∧
    (11 ≤ r.val →
      (use_card g i inp).health = 12 + (r.val - 10) * 2) := by
  have he := use_card_regular g i Suit.Hearts r inp h1 h2 hc
  rw [he]
  constructor
  · intro hlt
    simp only [regularBranch, potion, discardPlayed]
    rw [if_pos (show r.val < Rank.Jack.val from hlt)]
  · intro hge
    simp only [regularBranch, potion, discardPlayed]
    rw [if_neg (show ¬ r.val < Rank.Jack.val from Nat.not_lt.mpr hge)]
    rfl

theorem use_card_joker_eq (g : Game) (i : Nat) (col : JokerColor)
    (h1 : 1 ≤ i) (h2 : i - 1 < g.room.length)
    (hc : (g.room.getD (i - 1) dummyCard).card_type = CardType.Joker col) :
    (use_card g i none = g) ∧
    (∀ j : Nat, j = 0 ∨ g.room.length ≤ j - 1 → use_card g i (some j) = g) ∧
    (use_card g i (some i) = g) ∧
    (∀ j : Nat, 1 ≤ j → j - 1 < g.room.length → j ≠ i →
      use_card g i (some j) =
        { g with
          money := g.money + ((g.room.getD (j - 1) dummyCard).get_value + 1) / 2
          dungeon_discard := g.dungeon_discard ++ [g.room.getD (j - 1) dummyCard]
            ++ [g.room.getD (i - 1) dummyCard]
          room := (g.room.eraseIdx (j - 1)).eraseIdx
            ((if j < i then i - 1 else i) - 1)
          fled := false }) := by
  have hguard : ¬ (i = 0 ∨ g.room.length ≤ i - 1) := by omega
  refine ⟨?_, ?_, ?_, ?_⟩
  · unfold use_card
    rw [if_neg hguard, hc]
  · intro j hj
    unfold use_card
    rw [if_neg hguard, hc]
    simp only
    rw [if_pos hj]
  · unfold use_card
    rw [if_neg hguard, hc]
    simp only
    rw [if_neg (by omega)]
    simp
  · intro j hj1 hj2 hji
    have hjoker : (g.room.eraseIdx (j - 1)).getD ((if j < i then i - 1 else i) - 1)
        dummyCard = g.room.getD (i - 1) dummyCard := by
      by_cases hlt : j < i
      · rw [if_pos hlt]
        rw [getD_eraseIdx_of_ge _ _ _ (by omega)]
        congr 1
        omega
      · rw [if_neg hlt]
        exact getD_eraseIdx_of_lt _ _ _ (by omega)
    unfold use_card
    rw [if_neg hguard, hc]
    simp only
    rw [if_neg (by omega), if_neg hji]
    simp only [List.getD_eq_getElem?_getD] at hjoker
    simp [discardPlayed, hjoker]

/-- C6: playing a Joker from a valid slot `i` with a prompted destroy slot:
an unparsable prompt, an out-of-range slot, or the joker's own slot leaves
the state unchanged; a valid distinct slot `j` moves the card at `j` to
`dungeon_discard`, adds `ceil(value/2)` money, and then discards the joker
itself (through an index decremented by one exactly when `j < i`), clearing
`fled`. -/
theorem use_card_joker_spec (g : Game) (i : Nat) (col : JokerColor)
    (h1 : 1 ≤ i) (h2 : i - 1 < g.room.length)
    (hc : (g.room.getD (i - 1) dummyCard).card_type = CardType.Joker col) :
    (use_card g i none = g) ∧
    (∀ j : Nat, j = 0 ∨ g.room.length ≤ j - 1 → use_card g i (some j) = g) ∧
    (use_card g i (some i) = g) ∧
    (∀ j : Nat, 1 ≤ j → j - 1 < g.room.length → j ≠ i →
      use_card g i (some j) =
        { g with
          money := g.money + ((g.room.getD (j - 1) dummyCard).get_value + 1) / 2
          dungeon_discard := g.dungeon_discard ++ [g.room.getD (j - 1) dummyCard]
            ++ [g.room.getD (i - 1) dummyCard]
          room := (g.room.eraseIdx (j - 1)).eraseIdx
            ((if j < i then i - 1 else i) - 1)
          fled := false }) :=
  use_card_joker_eq g i col h1 h2 hc

/-! ## C2: refresh_room -/

/-- C2: `refresh_room(quiet)` first restocks — when `room.len() ≤ 1`,
exactly `min (4 - room.len()) dungeon.len()` cards move from the front of
the dungeon to the room (otherwise the restock does nothing) — and then
checks: if health is 0 the state becomes Lost (the win check is skipped);
otherwise, if the dungeon is empty and no remaining room card is a
Clubs/Spades regular card, the state becomes Won when `bosses` is empty,
else the state becomes Shop and `min 4 shop.len()` cards move from the
front of the shop pool into `shop_stock`; in all remaining cases only the
restock happens. -/
theorem refresh_room_spec (g : Game) (q : Bool) :
    (g.room.length ≤ 1 →
      restock g = { g with
        room := g.room ++ g.dungeon.take (min (4 - g.room.length) g.dungeon.length)
        dungeon := g.dungeon.drop (min (4 - g.room.length) g.dungeon.length) }) ∧
    (1 < g.room.length → restock g = g) ∧
    ((restock g).health = 0 →
      refresh_room g q = { restock g with state := GameState.Lost }) ∧
    ((restock g).health ≠ 0 → (restock g).dungeon = [] →
      (∀ c ∈ (restock g).room, isMonster c = false) →
      ((restock g).bosses = [] →
        refresh_room g q = { restock g with state := GameState.Won }) ∧
      ((restock g).bosses ≠ [] →
        refresh_room g q = { restock g with
          state := GameState.Shop
          shop := (restock g).shop.drop (min 4 (restock g).shop.length)
          shop_stock := (restock g).shop_stock ++
            (restock g).shop.take (min 4 (restock g).shop.length) })) ∧
    ((restock g).health ≠ 0 →
      ((restock g).dungeon ≠ [] ∨ ∃ c ∈ (restock g).room, isMonster c = true) →
      refresh_room g q = restock g) := by
  refine ⟨?_, ?_, ?_, ?_, ?_⟩
  · intro h
    have hmv := moveN_eq ((4 - g.room.length) ⊓ g.dungeon.length) g.dungeon g.room
      (Nat.min_le_right _ _)
    unfold restock
    rw [if_pos h]
    simp only [hmv]
  · intro h
    unfold restock
    rw [if_neg (by omega)]
  · intro h
    unfold refresh_room winLossCheck
    rw [if_pos h]
  · intro hh hd hm
    have hcond : ((restock g).dungeon.isEmpty && !((restock g).room.any isMonster)) = true := by
      simp [List.isEmpty_iff, hd, List.any_eq_false]
      intro c hc
      simpa using hm c hc
    constructor
    · intro hb
      unfold refresh_room winLossCheck
      rw [if_neg hh, if_pos hcond, if_pos (by simp [List.isEmpty_iff, hb])]
    · intro hb
      have hmv := moveN_eq ((restock g).shop.length ⊓ 4) (restock g).shop
        (restock g).shop_stock (Nat.min_le_left _ _)
      unfold refresh_room winLossCheck
      rw [if_neg hh, if_pos hcond, if_neg (by simp [List.isEmpty_iff, hb])]
      simp only [hmv]
      rw [show (restock g).shop.length ⊓ 4 = 4 ⊓ (restock g).shop.length from
        Nat.min_comm _ _]
  · intro hh hcond
    have hfalse :
        ¬ (((restock g).dungeon.isEmpty && !((restock g).room.any isMonster)) = true) := by
      intro hcontra
      rw [Bool.and_eq_true] at hcontra
      obtain ⟨he, hna⟩ := hcontra
      rcases hcond with h | ⟨c, hc, hmon⟩
      · exact h (List.isEmpty_iff.mp he)
      · have hanyf : (restock g).room.any isMonster = false := by simpa using hna
        rw [List.any_eq_false] at hanyf
        exact (hanyf c hc) (by simp [hmon])
    unfold refresh_room winLossCheck
    rw [if_neg hh, if_neg hfalse]

/-! ## C7: flee -/

theorem list_len4 (l : List Card) (h : l.length = 4) :
    ∃ a b c d : Card, l = [a, b, c, d] := by
  rcases l with _ | ⟨a, l⟩
  · simp at h
  rcases l with _ | ⟨b, l⟩
  · simp at h
  rcases l with _ | ⟨c, l⟩
  · simp at h
  rcases l with _ | ⟨d, l⟩
  · simp at h
  rcases l with _ | ⟨e, l⟩
  · exact ⟨a, b, c, d, rfl⟩
  · simp at h

/-- C7: `flee()` succeeds exactly when the room holds 4 cards and `fled`
is false; on success the 4 room cards move to the end of the dungeon (in
pop order, i.e. reversed), the room empties, and `fled` becomes true; on
failure nothing changes; and after a successful flee an immediately
following flee is a no-op. -/
theorem flee_spec (g : Game) (hlen : g.room.length ≤ 4) :
    (g.room.length = 4 → g.fled = false →
      flee g = { g with
        dungeon := g.dungeon ++ g.room.reverse
        room := []
        fled := true }) ∧
    (¬ (g.room.length = 4 ∧ g.fled = false) → flee g = g) ∧
    (g.room.length = 4 → g.fled = false → flee (flee g) = flee g) := by
  have hsucc : g.room.length = 4 → g.fled = false →
      flee g = { g with
        dungeon := g.dungeon ++ g.room.reverse
        room := []
        fled := true } := by
    intro h4 hf
    obtain ⟨a, b, c, d, hr⟩ := list_len4 g.room h4
    unfold flee
    rw [hr, hf]
    simp [popPush]
  refine ⟨hsucc, ?_, ?_⟩
  · intro h
    unfold flee
    by_cases h4 : g.room.length < 4
    · rw [if_pos h4]
    · rw [if_neg h4]
      have hf : g.fled = true := by
        rcases Bool.eq_false_or_eq_true g.fled with hf | hf
        · exact hf
        · exact absurd ⟨by omega, hf⟩ h
      rw [hf]
      simp
  · intro h4 hf
    rw [hsucc h4 hf]
    unfold flee
    rw [if_pos (by simp)]

/-! ## C8: buy_card -/

/-- C8: `buy_card` with a 1-based index into `shop_stock`: an index of 0 or
out of range changes nothing; at a valid index, if `money ≥` the card's
value then money decreases by exactly that value and the card moves from
`shop_stock` to the end of the dungeon, and otherwise nothing changes. -/
theorem buy_card_spec (g : Game) (j : Nat) :
    (j = 0 ∨ g.shop_stock.length ≤ j - 1 → buy_card g j = g) ∧
    (1 ≤ j → j - 1 < g.shop_stock.length →
      ((g.shop_stock.getD (j - 1) dummyCard).get_value ≤ g.money →
        buy_card g j = { g with
          money := g.money - (g.shop_stock.getD (j - 1) dummyCard).get_value
          dungeon := g.dungeon ++ [g.shop_stock.getD (j - 1) dummyCard]
          shop_stock := g.shop_stock.eraseIdx (j - 1) }) ∧
      (g.money < (g.shop_stock.getD (j - 1) dummyCard).get_value →
        buy_card g j = g)) := by
  constructor
  · intro h
    unfold buy_card
    rw [if_pos h]
  · intro h1 h2
    constructor
    · intro hm
      unfold buy_card
      rw [if_neg (by omega), if_pos hm]
    · intro hm
      unfold buy_card
      rw [if_neg (by omega), if_neg (by omega)]

/-! ## Card-count bookkeeping for the conservation invariant -/

theorem Game_new_eq (deck : List Card) :
    Game.new deck =
      { dungeon := deck.filter isDungeonCard
        dungeon_discard := []
        room := []
        bosses := sortCards (deck.filter isBossCard)
        shop := deck.filter isShopCard
        shop_stock := []
        shop_discard := []
        health := 12
        money := 5
        weapon_damage := 0
        weapon_durability := u8MAX
        fled := false
        state := GameState.Floor } := by
  simp [Game.new, deck_partition_eq]

theorem totalCards_new (deck : List Card) (h : deck.Perm create_deck) :
    totalCards (Game.new deck) = 42 := by
  rw [Game_new_eq]
  unfold totalCards
  simp only [List.length_nil]
  rw [(h.filter isDungeonCard).length_eq, (sortCards_perm _).length_eq,
    (h.filter isBossCard).length_eq, (h.filter isShopCard).length_eq]
  decide

theorem totalCards_start_floor (shuffle : List Card → List Card)
    (hsh : ∀ l : List Card, (shuffle l).Perm l) (g : Game) :
    totalCards (start_floor shuffle g) = totalCards g := by
  unfold start_floor totalCards
  simp only [List.length_nil]
  rw [(hsh _).length_eq]
  simp [List.length_append]
  omega

theorem totalCards_restock (g : Game) : totalCards (restock g) = totalCards g := by
  unfold restock
  split_ifs with h
  · rcases hmv : moveN ((4 - g.room.length) ⊓ g.dungeon.length) g.dungeon g.room
      with ⟨d, r⟩
    have hlen := moveN_length ((4 - g.room.length) ⊓ g.dungeon.length) g.dungeon g.room
    rw [hmv] at hlen
    simp only [hmv, totalCards]
    simp at hlen
    omega
  · rfl

theorem totalCards_winLossCheck (g : Game) : totalCards (winLossCheck g) = totalCards g := by
  unfold winLossCheck
  split_ifs with h1 h2 h3
  · rfl
  · rfl
  · rcases hmv : moveN (g.shop.length ⊓ 4) g.shop g.shop_stock with ⟨sh, st⟩
    have hlen := moveN_length (g.shop.length ⊓ 4) g.shop g.shop_stock
    rw [hmv] at hlen
    simp only [hmv, totalCards]
    simp at hlen
    omega
  · rfl

theorem totalCards_refresh (g : Game) (q : Bool) :
    totalCards (refresh_room g q) = totalCards g := by
  unfold refresh_room
  rw [totalCards_winLossCheck, totalCards_restock]

theorem regularBranch_pools (g : Game) (s : Suit) (r : Rank) :
    (regularBranch g s r).dungeon = g.dungeon ∧
    (regularBranch g s r).dungeon_discard = g.dungeon_discard ∧
    (regularBranch g s r).room = g.room ∧
    (regularBranch g s r).bosses = g.bosses ∧
    (regularBranch g s r).shop = g.shop ∧
    (regularBranch g s r).shop_stock = g.shop_stock ∧
    (regularBranch g s r).shop_discard = g.shop_discard := by
  rcases s <;>
    (refine ⟨?_, ?_, ?_, ?_, ?_, ?_, ?_⟩ <;>
      (simp only [regularBranch, monsterFight, potion, weaponCard];
        split_ifs <;> rfl))

theorem totalCards_use_card (g : Game) (i : Nat) (inp : Option Nat) :
    totalCards (use_card g i inp) = totalCards g := by
  by_cases hg : i = 0 ∨ g.room.length ≤ i - 1
  · unfold use_card
    rw [if_pos hg]
  · push_neg at hg
    obtain ⟨hi0, hlen⟩ := hg
    rcases hct : (g.room.getD (i - 1) dummyCard).card_type with ⟨s, r⟩ | col
    · rw [use_card_regular g i s r inp (by omega) (by omega) hct]
      obtain ⟨p1, p2, p3, p4, p5, p6, p7⟩ := regularBranch_pools g s r
      unfold discardPlayed totalCards
      simp only [p1, p2, p3, p4, p5, p6, p7, List.length_append, List.length_cons,
        List.length_nil]
      rw [List.length_eraseIdx_of_lt (by omega)]
      omega
    · have h1 : 1 ≤ i := by omega
      have h2 : i - 1 < g.room.length := by omega
      rcases inp with _ | j
      · rw [(use_card_joker_eq g i col h1 h2 hct).1]
      · by_cases hj : j = 0 ∨ g.room.length ≤ j - 1
        · rw [(use_card_joker_eq g i col h1 h2 hct).2.1 j hj]
        · by_cases hji : j = i
          · rw [hji, (use_card_joker_eq g i col h1 h2 hct).2.2.1]
          · rw [(use_card_joker_eq g i col h1 h2 hct).2.2.2 j (by omega) (by omega) hji]
            unfold totalCards
            simp only [List.length_append, List.length_cons, List.length_nil]
            rw [List.length_eraseIdx_of_lt
                (show (if j < i then i - 1 else i) - 1 < (g.room.eraseIdx (j - 1)).length by
                  rw [List.length_eraseIdx_of_lt (by omega)]
                  split_ifs <;> omega),
              List.length_eraseIdx_of_lt (by omega)]
            omega

theorem popPush_length (r d : List Card) :
    (popPush r d).1.length + (popPush r d).2.length = r.length + d.length := by
  induction r using List.reverseRecOn with
  | nil => simp [popPush]
  | append_singleton l a _ =>
    simp [popPush, List.dropLast_concat, List.getLast?_concat]
    omega

theorem totalCards_flee (g : Game) : totalCards (flee g) = totalCards g := by
  unfold flee
  split_ifs with h1 h2
  · rfl
  · rfl
  · rcases hp1 : popPush g.room g.dungeon with ⟨r1, d1⟩
    rcases hp2 : popPush r1 d1 with ⟨r2, d2⟩
    rcases hp3 : popPush r2 d2 with ⟨r3, d3⟩
    rcases hp4 : popPush r3 d3 with ⟨r4, d4⟩
    have l1 := popPush_length g.room g.dungeon
    have l2 := popPush_length r1 d1
    have l3 := popPush_length r2 d2
    have l4 := popPush_length r3 d3
    rw [hp1] at l1
    rw [hp2] at l2
    rw [hp3] at l3
    rw [hp4] at l4
    simp only [hp1, hp2, hp3, hp4, totalCards]
    simp at l1 l2 l3 l4
    omega

theorem totalCards_buy (g : Game) (j : Nat) : totalCards (buy_card g j) = totalCards g := by
  by_cases h1 : j = 0 ∨ g.shop_stock.length ≤ j - 1
  · unfold buy_card
    rw [if_pos h1]
  · by_cases h2 : (g.shop_stock.getD (j - 1) dummyCard).get_value ≤ g.money
    · unfold buy_card
      rw [if_neg h1, if_pos h2]
      unfold totalCards
      simp only [List.length_append, List.length_cons, List.length_nil]
      rw [List.length_eraseIdx_of_lt (show j - 1 < g.shop_stock.length by omega)]
      omega
    · unfold buy_card
      rw [if_neg h1, if_neg h2]

theorem totalCards_continue (ss sd : List Card → List Card)
    (hs : ∀ l : List Card, (ss l).Perm l) (hd : ∀ l : List Card, (sd l).Perm l)
    (g : Game) : totalCards (shop_continue ss sd g) = totalCards g := by
  unfold shop_continue
  rw [totalCards_refresh, totalCards_start_floor sd hd]
  unfold totalCards
  split_ifs with hE
  · simp [(hs _).length_eq, List.length_append]
    omega
  · simp [List.length_append]
    omega

/-! ## Durability bookkeeping -/

theorem dur_restock (g : Game) : (restock g).weapon_durability = g.weapon_durability := by
  unfold restock
  split_ifs with h
  · rcases hmv : moveN ((4 - g.room.length) ⊓ g.dungeon.length) g.dungeon g.room
      with ⟨d, r⟩
    simp only [hmv]
  · rfl

theorem dur_winLossCheck (g : Game) :
    (winLossCheck g).weapon_durability = g.weapon_durability := by
  unfold winLossCheck
  split_ifs with h1 h2 h3
  · rfl
  · rfl
  · rcases hmv : moveN (g.shop.length ⊓ 4) g.shop g.shop_stock with ⟨sh, st⟩
    simp only [hmv]
  · rfl

theorem dur_refresh (g : Game) (q : Bool) :
    (refresh_room g q).weapon_durability = g.weapon_durability := by
  unfold refresh_room
  rw [dur_winLossCheck, dur_restock]

theorem dur_flee (g : Game) : (flee g).weapon_durability = g.weapon_durability := by
  unfold flee
  split_ifs <;> rfl

theorem dur_buy (g : Game) (j : Nat) :
    (buy_card g j).weapon_durability = g.weapon_durability := by
  by_cases h1 : j = 0 ∨ g.shop_stock.length ≤ j - 1
  · unfold buy_card
    rw [if_pos h1]
  · by_cases h2 : (g.shop_stock.getD (j - 1) dummyCard).get_value ≤ g.money
    · unfold buy_card
      rw [if_neg h1, if_pos h2]
    · unfold buy_card
      rw [if_neg h1, if_neg h2]

theorem dur_start_floor (sh : List Card → List Card) (g : Game) :
    (start_floor sh g).weapon_durability = u8MAX := rfl

theorem dur_new (deck : List Card) : (Game.new deck).weapon_durability = u8MAX := by
  rw [Game_new_eq]

theorem dur_continue (ss sd : List Card → List Card) (g : Game) :
    (shop_continue ss sd g).weapon_durability = u8MAX := by
  unfold shop_continue
  rw [dur_refresh, dur_start_floor]

theorem monsterFight_durability (g : Game) (r : Rank) :
    (monsterFight g r).weapon_durability = r.val ∨
    (monsterFight g r).weapon_durability = g.weapon_durability := by
  unfold monsterFight
  split_ifs
  · left; rfl
  · left; rfl
  · right; rfl

theorem potion_durability (g : Game) (r : Rank) :
    (potion g r).weapon_durability = g.weapon_durability := by
  unfold potion
  split_ifs <;> rfl

theorem weaponCard_durability_equip (g : Game) (r : Rank) (h : r.val < 11) :
    (weaponCard g r).weapon_durability = u8MAX := by
  unfold weaponCard
  rw [if_pos (show r.val < Rank.Jack.val from h)]

theorem weaponCard_durability_pos (g : Game) (r : Rank) (h : 1 ≤ g.weapon_durability) :
    1 ≤ (weaponCard g r).weapon_durability := by
  unfold weaponCard
  split_ifs
  · show 1 ≤ u8MAX
    decide
  · show 1 ≤ g.weapon_durability + (r.val - Rank.Ten.val) * 2
    omega
  · exact h

theorem dur_use_card_joker (g : Game) (i : Nat) (col : JokerColor) (inp : Option Nat)
    (h1 : 1 ≤ i) (h2 : i - 1 < g.room.length)
    (hc : (g.room.getD (i - 1) dummyCard).card_type = CardType.Joker col) :
    (use_card g i inp).weapon_durability = g.weapon_durability := by
  rcases inp with _ | j
  · rw [(use_card_joker_eq g i col h1 h2 hc).1]
  · by_cases hj : j = 0 ∨ g.room.length ≤ j - 1
    · rw [(use_card_joker_eq g i col h1 h2 hc).2.1 j hj]
    · by_cases hji : j = i
      · rw [hji, (use_card_joker_eq g i col h1 h2 hc).2.2.1]
      · rw [(use_card_joker_eq g i col h1 h2 hc).2.2.2 j (by omega) (by omega) hji]

theorem durPos_use_card (g : Game) (i : Nat) (inp : Option Nat)
    (h : 1 ≤ g.weapon_durability) : 1 ≤ (use_card g i inp).weapon_durability := by
  by_cases hg : i = 0 ∨ g.room.length ≤ i - 1
  · unfold use_card
    rw [if_pos hg]
    exact h
  · push_neg at hg
    obtain ⟨hi0, hlen⟩ := hg
    rcases hct : (g.room.getD (i - 1) dummyCard).card_type with ⟨s, r⟩ | col
    · rw [use_card_regular g i s r inp (by omega) (by omega) hct]
      rw [show (discardPlayed (regularBranch g s r) i).weapon_durability =
        (regularBranch g s r).weapon_durability from rfl]
      rcases s
      · rw [show regularBranch g Suit.Hearts r = potion g r from rfl, potion_durability]
        exact h
      · exact weaponCard_durability_pos g r h
      · rcases monsterFight_durability g r with hd | hd
        · rw [show regularBranch g Suit.Clubs r = monsterFight g r from rfl, hd]
          exact (rank_val_bounds r).1
        · rw [show regularBranch g Suit.Clubs r = monsterFight g r from rfl, hd]
          exact h
      · rcases monsterFight_durability g r with hd | hd
        · rw [show regularBranch g Suit.Spades r = monsterFight g r from rfl, hd]
          exact (rank_val_bounds r).1
        · rw [show regularBranch g Suit.Spades r = monsterFight g r from rfl, hd]
          exact h
    · rw [dur_use_card_joker g i col inp (by omega) (by omega) hct]
      exact h

theorem durPos_reachable : ∀ g : Game, Reachable g → 1 ≤ g.weapon_durability := by
  intro g h
  induction h with
  | new deck hdeck =>
    rw [dur_new]
    decide
  | start_floor sh g hsh hg ih =>
    rw [dur_start_floor]
    decide
  | refresh_room g q hg ih =>
    rw [dur_refresh]
    exact ih
  | use_card g i inp hg ih => exact durPos_use_card g i inp ih
  | flee g hg ih =>
    rw [dur_flee]
    exact ih
  | buy_card g j hg ih =>
    rw [dur_buy]
    exact ih
  | shop_continue ss sd g hs hd hg ih =>
    rw [dur_continue]
    decide

theorem durInv_use_card (g : Game) (i : Nat) (inp : Option Nat) (h : DurabilityInv g)
    (hnr : ∀ (s : Suit) (r : Rank),
      (g.room.getD (i - 1) dummyCard).card_type = CardType.Regular s r →
      s = Suit.Diamonds → r.val < 11) :
    DurabilityInv (use_card g i inp) := by
  by_cases hg : i = 0 ∨ g.room.length ≤ i - 1
  · unfold use_card
    rw [if_pos hg]
    exact h
  · push_neg at hg
    obtain ⟨hi0, hlen⟩ := hg
    rcases hct : (g.room.getD (i - 1) dummyCard).card_type with ⟨s, r⟩ | col
    · rw [use_card_regular g i s r inp (by omega) (by omega) hct]
      unfold DurabilityInv
      rw [show (discardPlayed (regularBranch g s r) i).weapon_durability =
        (regularBranch g s r).weapon_durability from rfl]
      rcases s
      · rw [show regularBranch g Suit.Hearts r = potion g r from rfl, potion_durability]
        exact h
      · have hr11 : r.val < 11 := hnr Suit.Diamonds r hct rfl
        rw [show regularBranch g Suit.Diamonds r = weaponCard g r from rfl,
          weaponCard_durability_equip g r hr11]
        left
        rfl
      · rcases monsterFight_durability g r with hd | hd
        · rw [show regularBranch g Suit.Clubs r = monsterFight g r from rfl, hd]
          right
          exact rank_val_bounds r
        · rw [show regularBranch g Suit.Clubs r = monsterFight g r from rfl, hd]
          exact h
      · rcases monsterFight_durability g r with hd | hd
        · rw [show regularBranch g Suit.Spades r = monsterFight g r from rfl, hd]
          right
          exact rank_val_bounds r
        · rw [show regularBranch g Suit.Spades r = monsterFight g r from rfl, hd]
          exact h
    · unfold DurabilityInv
      rw [dur_use_card_joker g i col inp (by omega) (by omega) hct]
      exact h

/-! ## C9: the durability invariant -/

/-- C9, counterexample: the repair branch of `use_card` does not preserve
the claimed invariant — from durability 13 (a rank value, so the invariant
holds), playing a J♦ repair card yields durability 15, which is neither the
pristine sentinel nor a rank value 1..13. -/
theorem durability_counterexample :
    DurabilityInv gC9 ∧ ¬ DurabilityInv (use_card gC9 1 none) := by
  decide

/-- C9 (amended): in every reachable game state `weapon_durability` is at
least 1; every operation except the repair branch of `use_card` (a
Diamonds card of rank ≥ 11) preserves the stronger property of being the
pristine sentinel (u8::MAX) or a rank value 1..13, but the repair branch
adds `(rank - 10) * 2` to a degraded durability without clamping and can
push it above 13. -/
theorem durability_invariant_amended :
    (∀ g : Game, Reachable g → 1 ≤ g.weapon_durability) ∧
    (∀ (g : Game) (i : Nat) (inp : Option Nat), DurabilityInv g →
      (∀ (s : Suit) (r : Rank),
        (g.room.getD (i - 1) dummyCard).card_type = CardType.Regular s r →
        s = Suit.Diamonds → r.val < 11) →
      DurabilityInv (use_card g i inp)) ∧
    (∀ g : Game, DurabilityInv g → DurabilityInv (flee g)) ∧
    (∀ (g : Game) (j : Nat), DurabilityInv g → DurabilityInv (buy_card g j)) ∧
    (∀ (g : Game) (q : Bool), DurabilityInv g → DurabilityInv (refresh_room g q)) ∧
    (∀ (sh : List Card → List Card) (g : Game), DurabilityInv (start_floor sh g)) ∧
    (∀ deck : List Card, DurabilityInv (Game.new deck)) := by
  refine ⟨durPos_reachable, durInv_use_card, ?_, ?_, ?_, ?_, ?_⟩
  · intro g h
    unfold DurabilityInv at h ⊢
    rw [dur_flee]
    exact h
  · intro g j h
    unfold DurabilityInv at h ⊢
    rw [dur_buy]
    exact h
  · intro g q h
    unfold DurabilityInv at h ⊢
    rw [dur_refresh]
    exact h
  · intro sh g
    unfold DurabilityInv
    rw [dur_start_floor]
    left
    rfl
  · intro deck
    unfold DurabilityInv
    rw [dur_new]
    left
    rfl

/-! ## C10: card conservation -/

/-- C10: a fresh game distributes exactly 42 cards across the seven pools
(the 12 rank Ace–3 cards having been dropped), and every engine operation
— refresh_room, use_card (including the joker-destroy path), flee,
buy_card, start_floor and the shop-continue transition — only moves cards
between pools, so the total across all seven pools is 42 in every
reachable state. -/
theorem totalCards_reachable (g : Game) (h : Reachable g) : totalCards g = 42 := by
  induction h with
  | new deck hdeck => exact totalCards_new deck hdeck
  | start_floor sh g hsh hg ih =>
    rw [totalCards_start_floor sh hsh g]
    exact ih
  | refresh_room g q hg ih =>
    rw [totalCards_refresh]
    exact ih
  | use_card g i inp hg ih =>
    rw [totalCards_use_card]
    exact ih
  | flee g hg ih =>
    rw [totalCards_flee]
    exact ih
  | buy_card g j hg ih =>
    rw [totalCards_buy]
    exact ih
  | shop_continue ss sd g hs hd hg ih =>
    rw [totalCards_continue ss sd hs hd g]
    exact ih

/-! ## Witnesses -/

/-- C1 witness: fighting the 5♣ with the 3♦ weapon (durability 10) sets
durability to 5 and costs 2 HP. -/
theorem use_card_monster_spec_witness :
    (use_card gW1 1 none).weapon_durability = Rank.Five.val ∧
    (use_card gW1 1 none).health = gW1.health - (Rank.Five.val - gW1.weapon_damage) := by
  have h := use_card_monster_spec gW1 1 Suit.Clubs Rank.Five none (by decide) (by decide)
    (by decide) (Or.inl rfl)
  have h2 := h.1 (by decide)
  exact ⟨h2.1, (h2.2.2 (by decide)).1⟩

/-- C3 witness: drinking the 7♥ at health 5 heals to 12. -/
theorem use_card_potion_spec_witness :
    (use_card gW3 1 none).health =
      min (gW3.health + Rank.Seven.val) (max 12 gW3.health) := by
  have h := use_card_potion_spec gW3 1 Rank.Seven none (by decide) (by decide) (by decide)
  exact h.1 (by decide)

/-- C6 witness: the joker in slot 3 destroying the 5♣ in slot 2 yields
ceil(5/2) = 3 money. -/
theorem use_card_joker_spec_witness :
    (use_card gW6 3 (some 2)).money = gW6.money + 3 := by
  have h := (use_card_joker_spec gW6 3 JokerColor.Black (by decide) (by decide)
    (by decide)).2.2.2 2 (by decide) (by decide) (by decide)
  rw [h]
  decide

/-- C2 witness: with one room card and five dungeon cards the restock draws
exactly three. -/
theorem refresh_room_spec_witness :
    restock gW2 = { gW2 with
      room := gW2.room ++ gW2.dungeon.take (min (4 - gW2.room.length) gW2.dungeon.length)
      dungeon := gW2.dungeon.drop (min (4 - gW2.room.length) gW2.dungeon.length) } :=
  (refresh_room_spec gW2 true).1 (by decide)

/-- C7 witness: fleeing a full room returns all four cards to the dungeon
and empties the room. -/
theorem flee_spec_witness :
    flee gW7 = { gW7 with
      dungeon := gW7.dungeon ++ gW7.room.reverse
      room := []
      fled := true } :=
  (flee_spec gW7 (by decide)).1 (by decide) (by decide)

/-- C8 witness: with $5, buying the $15 joker fails with no change, and
buying the $5 card leaves $0. -/
theorem buy_card_spec_witness :
    buy_card gW8 1 = gW8 ∧ (buy_card gW8 2).money = 0 := by
  have h1 := ((buy_card_spec gW8 1).2 (by decide) (by decide)).2 (by decide)
  have h2 := ((buy_card_spec gW8 2).2 (by decide) (by decide)).1 (by decide)
  refine ⟨h1, ?_⟩
  rw [h2]
  decide

/-- C4 witness: the identity shuffle yields a 24-card dungeon pool and a
sorted boss pool. -/
theorem deck_partition_amended_witness :
    (Game.new create_deck).dungeon.length = 24 ∧
    List.Sorted cardLE (Game.new create_deck).bosses := by
  have h := deck_partition_amended create_deck (List.Perm.refl _)
  exact ⟨h.1.2, h.2.2.1.2.2⟩

/-- C5 witness: by transitivity the Red Joker compares below the Ace of
Hearts. -/
theorem card_order_amended_witness :
    Card.cmp (Card.mk (CardType.Joker JokerColor.Red))
      (Card.mk (CardType.Regular Suit.Hearts Rank.Ace)) = Ordering.lt :=
  card_order_amended.2.2.1 (Card.mk (CardType.Joker JokerColor.Red))
    (Card.mk (CardType.Joker JokerColor.Black))
    (Card.mk (CardType.Regular Suit.Hearts Rank.Ace)) (by decide) (by decide)

/-- C9 witness: a fresh game is reachable and has positive durability. -/
theorem durability_invariant_amended_witness :
    1 ≤ (Game.new create_deck).weapon_durability :=
  durability_invariant_amended.1 (Game.new create_deck)
    (Reachable.new create_deck (List.Perm.refl _))

/-- C10 witness: a fresh game from the identity shuffle holds 42 cards. -/
theorem totalCards_reachable_witness : totalCards (Game.new create_deck) = 42 :=
  totalCards_reachable (Game.new create_deck) (Reachable.new create_deck (List.Perm.refl _))

end DungeonCards
